import Mathlib

/-!
Shallow embedding of the directory-backed blob store `store/fsdir.go`
(`FSDir` and its operations), together with proofs about the embedded
operations.  Filenames and file contents are byte strings (`List Nat`),
matching Go's byte-slice strings.  The filesystem is modelled as the store
directory's entry list plus fault sets naming files whose read or write
fails with a non-not-exist I/O error.
-/

set_option linter.unusedVariables false

namespace Store

/-- Byte strings: Go byte slices and strings, one natural number per byte. -/
abbrev ByteStr := List Nat

/- The repository's object-identifier type `ID` is an integer key, formatted on
disk with `strconv.FormatInt(int64(id), 10)`; it is embedded as `Int` throughout. -/

/-- Modelled from the spec: a blob is an opaque byte sequence. -/
abbrev Blob := ByteStr

/-- Modelled from the spec: the zero/null identifier returned by a failed create. -/
def NullID : Int := 0

/-- Modelled from the spec: an `Item` pairs an identifier with its blob; produced
only by the full-directory enumeration. -/
structure Item where
  id : Int
  blob : Blob
deriving DecidableEq

/-- Low-level filesystem errors: a not-exist error (the kind recognised by
`os.IsNotExist`) or any other I/O error, tagged with the offending name. -/
inductive IOErr where
  | notExist (name : ByteStr)
  | other (name : ByteStr)
deriving DecidableEq

/-- Errors surfaced by the store: `ErrDifferentOwner`, `ErrCorruptedContent`,
`ErrNotFound`, a `strconv.Atoi` parse failure, and propagated low-level I/O
errors. -/
inductive Err where
  | differentOwner (pid : Int)
  | corruptedContent (name : ByteStr)
  | notFound (id : Int)
  | parseFailure (content : ByteStr)
  | ioErr (e : IOErr)
deriving DecidableEq

/-- A directory entry's node: a regular file with its content, or a subdirectory. -/
inductive FNode where
  | file (content : ByteStr)
  | dir
deriving DecidableEq

/-- Whether the node is a directory (`fs.DirEntry.IsDir`). -/
def FNode.isDir : FNode → Bool
  | .dir => true
  | .file _ => false

/-- One named entry of the store directory. -/
structure FSEntry where
  name : ByteStr
  node : FNode
deriving DecidableEq

/-- The backing directory: its entries in traversal (lexical) order, plus fault
sets naming files whose read or write fails with a non-not-exist I/O error. -/
structure FS where
  entries : List FSEntry
  readFault : List ByteStr
  writeFault : List ByteStr
deriving DecidableEq

/-- The constant `lockFile = ".lock"` as bytes. -/
def lockFile : ByteStr := [46, 108, 111, 99, 107]

/-- Value of a byte string all of whose bytes are ASCII decimal digits. -/
def digitsVal (l : ByteStr) : Option Nat :=
  l.foldl (fun acc d => acc.bind (fun a => if 48 ≤ d ∧ d ≤ 57 then some (a * 10 + (d - 48)) else none)) (some 0)

/-- Parse a nonempty run of ASCII decimal digits. -/
def parseDigits (l : ByteStr) : Option Nat :=
  if l = [] then none else digitsVal l

/-- Go `strconv.Atoi` on a 64-bit platform: an optional sign, then a nonempty
run of decimal digits, with the value required to fit in `int64`. -/
def atoi (s : ByteStr) : Option Int :=
  match s with
  | 43 :: rest => (parseDigits rest).bind (fun n => if n ≤ 9223372036854775807 then some (n : Int) else none)
  | 45 :: rest => (parseDigits rest).bind (fun n => if n ≤ 9223372036854775808 then some (-(n : Int)) else none)
  | _ => (parseDigits s).bind (fun n => if n ≤ 9223372036854775807 then some (n : Int) else none)

/-- Decimal digits of a natural number accumulated most-significant-first; the
first argument is recursion fuel, and the number itself is always enough fuel. -/
def natReprAux : Nat → Nat → ByteStr → ByteStr
  | 0, _, acc => acc
  | _ + 1, 0, acc => acc
  | fuel + 1, n + 1, acc => natReprAux fuel ((n + 1) / 10) ((48 + (n + 1) % 10) :: acc)

/-- Decimal representation of a natural number. -/
def natRepr (n : Nat) : ByteStr :=
  if n = 0 then [48] else natReprAux n n []

/-- Go `strconv.FormatInt(int64(id), 10)`: a minus sign for negative values,
then the decimal digits. -/
def formatID (id : Int) : ByteStr :=
  if id < 0 then 45 :: natRepr id.natAbs else natRepr id.toNat

/-- Look up the node stored under name `n`. -/
def findNode : List FSEntry → ByteStr → Option FNode
  | [], _ => none
  | e :: rest, n => if e.name = n then some e.node else findNode rest n

/-- Replace the entry named `n` (or append it) with the given node. -/
def setEntry : List FSEntry → ByteStr → FNode → List FSEntry
  | [], n, node => [⟨n, node⟩]
  | e :: rest, n, node =>
    if e.name = n then ⟨n, node⟩ :: rest else e :: setEntry rest n node

/-- Remove every entry named `n`. -/
def dropEntry (l : List FSEntry) (n : ByteStr) : List FSEntry :=
  l.filter (fun e => decide (e.name ≠ n))

/-- Model of `os.ReadFile` inside the store directory: not-exist when the name
is absent, a non-not-exist error on a directory or a read-faulted file,
otherwise exactly the stored content. -/
def readFile (fs : FS) (n : ByteStr) : Except IOErr ByteStr :=
  match findNode fs.entries n with
  | none => .error (.notExist n)
  | some .dir => .error (.other n)
  | some (.file c) => if n ∈ fs.readFault then .error (.other n) else .ok c

/-- Model of `os.WriteFile`: fails on a write-faulted name or a directory,
otherwise creates or overwrites the file with exactly the given bytes. -/
def writeFile (fs : FS) (n : ByteStr) (c : ByteStr) : Except IOErr FS :=
  if n ∈ fs.writeFault then .error (.other n)
  else match findNode fs.entries n with
    | some .dir => .error (.other n)
    | _ => .ok { fs with entries := setEntry fs.entries n (.file c) }

/-- Model of `os.Remove`: not-exist when the entry is absent, otherwise removes it. -/
def removeFile (fs : FS) (n : ByteStr) : Except IOErr FS :=
  match findNode fs.entries n with
  | none => .error (.notExist n)
  | some _ => .ok { fs with entries := dropEntry fs.entries n }

/-- The handle state of `FSDir`: the in-memory counter, the process id, and the
backing path. -/
structure FSDir where
  lastObjectID : Int
  pid : Int
  fsPath : ByteStr
deriving DecidableEq

/-- Embedding of `getOwner`: read the lock file and parse its content as an
integer process identifier. -/
def getOwner (d : FSDir) (fs : FS) : Except Err Int :=
  match readFile fs lockFile with
  | .error e => .error (.ioErr e)
  | .ok data =>
    match atoi data with
    | none => .error (.parseFailure data)
    | some p => .ok p

/-- Embedding of `checkOwnedByMe`: succeeds only when the lock file parses to
the caller's own process identifier. -/
def checkOwnedByMe (d : FSDir) (fs : FS) : Except Err Unit :=
  match getOwner d fs with
  | .error e => .error e
  | .ok curPid => if curPid ≠ d.pid then .error (.differentOwner curPid) else .ok ()

/-- Embedding of `Save`: ownership check, then a direct overwrite of the file
named by the identifier's decimal form. -/
def Save (d : FSDir) (fs : FS) (id : Int) (blob : Blob) : Except Err Unit × FS :=
  match checkOwnedByMe d fs with
  | .error e => (.error e, fs)
  | .ok _ =>
    match writeFile fs (formatID id) blob with
    | .error e => (.error (.ioErr e), fs)
    | .ok fs' => (.ok (), fs')

/-- Embedding of `Create`: ownership check, then `Save` at `lastObjectID + 1`;
the counter advances only after the save succeeds, and failure returns
identifier 0 (`NullID`) with the error. -/
def Create (d : FSDir) (fs : FS) (data : Blob) : (Int × Option Err) × FSDir × FS :=
  match checkOwnedByMe d fs with
  | .error e => ((0, some e), d, fs)
  | .ok _ =>
    match Save d fs (d.lastObjectID + 1) data with
    | (.error e, fs') => ((NullID, some e), d, fs')
    | (.ok _, fs') => ((d.lastObjectID + 1, none), { d with lastObjectID := d.lastObjectID + 1 }, fs')

/-- Embedding of `Load`: ownership check, then a point read; a not-exist read
error becomes `ErrNotFound`, any other read error propagates unchanged. -/
def Load (d : FSDir) (fs : FS) (id : Int) : Except Err Blob :=
  match checkOwnedByMe d fs with
  | .error e => .error e
  | .ok _ =>
    match readFile fs (formatID id) with
    | .error (.notExist _) => .error (.notFound id)
    | .error e => .error (.ioErr e)
    | .ok data => .ok data

/-- Embedding of `Delete`: ownership check, then `os.Remove` of the entry named
by the identifier's decimal form; removal errors propagate unmodified. -/
def Delete (d : FSDir) (fs : FS) (id : Int) : Except Err Unit × FS :=
  match checkOwnedByMe d fs with
  | .error e => (.error e, fs)
  | .ok _ =>
    match removeFile fs (formatID id) with
    | .error e => (.error (.ioErr e), fs)
    | .ok fs' => (.ok (), fs')

/-- Base name of a path: the bytes after the last slash. -/
def baseName (p : ByteStr) : ByteStr :=
  p.foldl (fun acc b => if b == 47 then [] else acc ++ [b]) []

/-- `filepath.Join` of the store path and an entry name. -/
def pathJoin (dir n : ByteStr) : ByteStr := dir ++ 47 :: n

/-- One node visited by `filepath.WalkDir`: its full path, its base name, and
whether it is a directory. -/
structure Visited where
  path : ByteStr
  base : ByteStr
  isDir : Bool
deriving DecidableEq

/-- The visit order of `filepath.WalkDir` rooted at the store path: the root
directory itself first, then each of its entries in directory order. -/
def walkSequence (fsPath : ByteStr) (fs : FS) : List Visited :=
  ⟨fsPath, baseName fsPath, true⟩ :: fs.entries.map (fun e => ⟨pathJoin fsPath e.name, e.name, e.node.isDir⟩)

/-- Embedding of the walk callback inside `LoadAll`: directories are corrupted
content, the lock file and dot-prefixed names are skipped, numeric names are
read eagerly into an `Item`, and anything else is corrupted content. -/
def loadAllStep (fs : FS) (items : List Item) (v : Visited) : Except Err (List Item) :=
  if v.isDir then .error (.corruptedContent v.path)
  else if v.base = lockFile then .ok items
  else if v.base.head? = some 46 then .ok items
  else
    match atoi v.base with
    | none => .error (.corruptedContent v.path)
    | some objectID =>
      match readFile fs v.base with
      | .error _ => .error (.corruptedContent v.path)
      | .ok data => .ok (items ++ [⟨objectID, data⟩])

/-- Fold of the `LoadAll` callback over the visit order; on the first error the
items collected so far are returned alongside the error, as in `filepath.WalkDir`. -/
def loadAllWalk (fs : FS) (items : List Item) : List Visited → List Item × Option Err
  | [] => (items, none)
  | v :: rest =>
    match loadAllStep fs items v with
    | .error e => (items, some e)
    | .ok items' => loadAllWalk fs items' rest

/-- Embedding of `LoadAll`: ownership check, then the eager full-directory walk. -/
def LoadAll (d : FSDir) (fs : FS) : List Item × Option Err :=
  match checkOwnedByMe d fs with
  | .error e => ([], some e)
  | .ok _ => loadAllWalk fs [] (walkSequence d.fsPath fs)

/-- Embedding of the walk callback inside `getLastObjectID`: like `LoadAll`'s
callback but only tracking the maximum numeric name seen. -/
def scanStep (lastID : Int) (v : Visited) : Except Err Int :=
  if v.isDir then .error (.corruptedContent v.path)
  else if v.base = lockFile then .ok lastID
  else if v.base.head? = some 46 then .ok lastID
  else
    match atoi v.base with
    | none => .error (.corruptedContent v.path)
    | some objectID => .ok (max objectID lastID)

/-- Fold of the `getLastObjectID` callback over the visit order. -/
def scanWalk (lastID : Int) : List Visited → Int × Option Err
  | [] => (lastID, none)
  | v :: rest =>
    match scanStep lastID v with
    | .error e => (lastID, some e)
    | .ok lastID' => scanWalk lastID' rest

/-- Embedding of `getLastObjectID`: scan the directory for the highest numeric
name, starting from the zero value of `ID`. -/
def getLastObjectID (d : FSDir) (fs : FS) : Int × Option Err :=
  scanWalk 0 (walkSequence d.fsPath fs)

/-- Embedding of `NewFSDir`: ownership check with a fresh handle, then the ID
scan, then the counter is seeded to `max(lastObjectID, 1)`.  The function only
reads the filesystem, so a failed open performs no mutation. -/
def NewFSDir (pid : Int) (fsPath : ByteStr) (fs : FS) : Except Err FSDir :=
  match checkOwnedByMe ⟨0, pid, fsPath⟩ fs with
  | .error e => .error e
  | .ok _ =>
    match getLastObjectID ⟨0, pid, fsPath⟩ fs with
    | (_, some e) => .error e
    | (lastObjectID, none) => .ok ⟨max lastObjectID 1, pid, fsPath⟩

/-- Embedding of `releaseOwnership`: remove the lock file unconditionally,
without re-checking ownership. -/
def releaseOwnership (d : FSDir) (fs : FS) : Except Err Unit × FS :=
  match removeFile fs lockFile with
  | .error e => (.error (.ioErr e), fs)
  | .ok fs' => (.ok (), fs')

/-- Embedding of `Close`: delegates to `releaseOwnership`. -/
def Close (d : FSDir) (fs : FS) : Except Err Unit × FS :=
  releaseOwnership d fs

/-- One public operation invoked through an open handle. -/
inductive Op where
  | create (data : Blob)
  | load (id : Int)
  | save (id : Int) (blob : Blob)
  | delete (id : Int)
  | loadAll
  | close
deriving DecidableEq

deriving instance DecidableEq for Except

/-- The result of one operation, tagged by the operation kind. -/
inductive OpResult where
  | created (r : Int × Option Err)
  | loaded (r : Except Err Blob)
  | saved (r : Except Err Unit)
  | deleted (r : Except Err Unit)
  | scanned (r : List Item × Option Err)
  | closed (r : Except Err Unit)
deriving DecidableEq

/-- Whether the operation completed without error. -/
def OpResult.isOk : OpResult → Bool
  | .created (_, none) => true
  | .created (_, some _) => false
  | .loaded (.ok _) => true
  | .loaded (.error _) => false
  | .saved (.ok _) => true
  | .saved (.error _) => false
  | .deleted (.ok _) => true
  | .deleted (.error _) => false
  | .scanned (_, none) => true
  | .scanned (_, some _) => false
  | .closed (.ok _) => true
  | .closed (.error _) => false

/-- Run one operation against the handle and filesystem. -/
def step (d : FSDir) (fs : FS) : Op → OpResult × FSDir × FS
  | .create data =>
    match Create d fs data with
    | (r, d', fs') => (.created r, d', fs')
  | .load id => (.loaded (Load d fs id), d, fs)
  | .save id blob =>
    match Save d fs id blob with
    | (r, fs') => (.saved r, d, fs')
  | .delete id =>
    match Delete d fs id with
    | (r, fs') => (.deleted r, d, fs')
  | .loadAll => (.scanned (LoadAll d fs), d, fs)
  | .close =>
    match Close d fs with
    | (r, fs') => (.closed r, d, fs')

/-- Run a sequence of operations, collecting each result. -/
def run (d : FSDir) (fs : FS) : List Op → List OpResult × FSDir × FS
  | [] => ([], d, fs)
  | op :: ops =>
    match step d fs op with
    | (r, d', fs') =>
      match run d' fs' ops with
      | (rs, d'', fs'') => (r :: rs, d'', fs'')

/-- The identifier returned by a successful create, if this result is one. -/
def createdOf : OpResult → Option Int
  | .created (i, none) => some i
  | _ => none

/-- The identifiers returned by the successful creates of a result sequence. -/
def createdIDs (rs : List OpResult) : List Int :=
  rs.filterMap createdOf

/-- The error-shaped result each operation produces when the ownership check
fails with `e`. -/
def errResult : Op → Err → OpResult
  | .create _, e => .created (0, some e)
  | .load _, e => .loaded (.error e)
  | .save _ _, e => .saved (.error e)
  | .delete _, e => .deleted (.error e)
  | .loadAll, e => .scanned ([], some e)
  | .close, e => .closed (.error e)

/-! ### Helper lemmas -/

theorem natReprAux_mem (fuel : Nat) : ∀ (n : Nat) (acc : ByteStr),
    (∀ b ∈ acc, 48 ≤ b ∧ b ≤ 57) → ∀ b ∈ natReprAux fuel n acc, 48 ≤ b ∧ b ≤ 57 := by
  induction fuel with
  | zero => intro n acc hacc; simpa [natReprAux] using hacc
  | succ fuel ih =>
    intro n acc hacc
    match n with
    | 0 => simpa [natReprAux] using hacc
    | n + 1 =>
      rw [natReprAux]
      refine ih ((n + 1) / 10) _ ?_
      intro b hb
      rcases List.mem_cons.mp hb with h | h
      · subst h; omega
      · exact hacc b h

theorem natRepr_mem (n : Nat) : ∀ b ∈ natRepr n, 48 ≤ b ∧ b ≤ 57 := by
  unfold natRepr
  split
  · intro b hb
    simp only [List.mem_singleton] at hb
    omega
  · exact natReprAux_mem n n [] (by simp)

theorem formatID_ne_lockFile (id : Int) : formatID id ≠ lockFile := by
  unfold formatID
  split
  · intro h
    simp [lockFile] at h
  · intro h
    have h46 : (46 : Nat) ∈ natRepr id.toNat := by rw [h]; simp [lockFile]
    have := natRepr_mem id.toNat 46 h46
    omega

theorem findNode_setEntry_self (l : List FSEntry) (n : ByteStr) (node : FNode) :
    findNode (setEntry l n node) n = some node := by
  induction l with
  | nil => simp [setEntry, findNode]
  | cons e rest ih =>
    by_cases h : e.name = n
    · simp [setEntry, findNode, h]
    · simp [setEntry, findNode, h, ih]

theorem findNode_setEntry_ne (l : List FSEntry) (n : ByteStr) (node : FNode) (m : ByteStr)
    (hm : m ≠ n) : findNode (setEntry l n node) m = findNode l m := by
  induction l with
  | nil => simp [setEntry, findNode, Ne.symm hm]
  | cons e rest ih =>
    by_cases h : e.name = n
    · have h2 : e.name ≠ m := by rw [h]; exact Ne.symm hm
      simp [setEntry, findNode, h, h2, Ne.symm hm]
    · by_cases h2 : e.name = m
      · simp [setEntry, findNode, h, h2, hm]
      · simp [setEntry, findNode, h, h2, ih]

theorem findNode_dropEntry_self (l : List FSEntry) (n : ByteStr) :
    findNode (dropEntry l n) n = none := by
  induction l with
  | nil => simp [dropEntry, findNode]
  | cons e rest ih =>
    by_cases h : e.name = n
    · simpa [dropEntry, findNode, h] using ih
    · simpa [dropEntry, findNode, h] using ih

theorem findNode_dropEntry_ne (l : List FSEntry) (n : ByteStr) (m : ByteStr)
    (hm : m ≠ n) : findNode (dropEntry l n) m = findNode l m := by
  induction l with
  | nil => simp [dropEntry, findNode]
  | cons e rest ih =>
    by_cases h : e.name = n
    · have h2 : e.name ≠ m := by rw [h]; exact Ne.symm hm
      simpa [dropEntry, findNode, h, h2, Ne.symm hm] using ih
    · by_cases h2 : e.name = m
      · simp [dropEntry, findNode, h, h2, hm]
      · simpa [dropEntry, findNode, h, h2, Ne.symm hm] using ih

theorem checkOwnedByMe_update (d : FSDir) (fs : FS) (l' : List FSEntry)
    (h : findNode l' lockFile = findNode fs.entries lockFile) :
    checkOwnedByMe d { fs with entries := l' } = checkOwnedByMe d fs := by
  unfold checkOwnedByMe getOwner readFile
  rw [h]

theorem checkOwnedByMe_noLock (d : FSDir) (fs : FS)
    (h : findNode fs.entries lockFile = none) :
    checkOwnedByMe d fs = .error (.ioErr (.notExist lockFile)) := by
  unfold checkOwnedByMe getOwner readFile
  rw [h]

theorem Save_ok (d : FSDir) (fs : FS) (id : Int) (blob : Blob) (fs' : FS)
    (h : Save d fs id blob = (.ok (), fs')) :
    checkOwnedByMe d fs = .ok () ∧
    fs' = { fs with entries := setEntry fs.entries (formatID id) (.file blob) } := by
  unfold Save at h
  cases hc : checkOwnedByMe d fs with
  | error e => rw [hc] at h; simp at h
  | ok val =>
    cases val
    rw [hc] at h
    refine ⟨rfl, ?_⟩
    cases hw : writeFile fs (formatID id) blob with
    | error e' => rw [hw] at h; simp at h
    | ok fs'' =>
      rw [hw] at h
      simp only [Prod.mk.injEq] at h
      unfold writeFile at hw
      split at hw
      · simp at hw
      · split at hw
        · simp at hw
        · simp only [Except.ok.injEq] at hw
          rw [← h.2, ← hw]

theorem Save_error_fs (d : FSDir) (fs : FS) (id : Int) (blob : Blob) (e : Err)
    (h : (Save d fs id blob).1 = .error e) : (Save d fs id blob).2 = fs := by
  unfold Save at h ⊢
  cases hc : checkOwnedByMe d fs with
  | error e' => rfl
  | ok val =>
    cases val
    rw [hc] at h
    cases hw : writeFile fs (formatID id) blob with
    | error e' => rfl
    | ok fs'' => rw [hw] at h; simp at h

theorem Delete_ok (d : FSDir) (fs : FS) (id : Int) (fs' : FS)
    (h : Delete d fs id = (.ok (), fs')) :
    checkOwnedByMe d fs = .ok () ∧
    fs' = { fs with entries := dropEntry fs.entries (formatID id) } := by
  unfold Delete at h
  cases hc : checkOwnedByMe d fs with
  | error e => rw [hc] at h; simp at h
  | ok val =>
    cases val
    rw [hc] at h
    refine ⟨rfl, ?_⟩
    cases hr : removeFile fs (formatID id) with
    | error e' => rw [hr] at h; simp at h
    | ok fs'' =>
      rw [hr] at h
      simp only [Prod.mk.injEq] at h
      unfold removeFile at hr
      split at hr
      · simp at hr
      · simp only [Except.ok.injEq] at hr
        rw [← h.2, ← hr]

theorem Create_spec (d : FSDir) (fs : FS) (data : Blob) (i : Int) (oe : Option Err)
    (d' : FSDir) (fs' : FS) (h : Create d fs data = ((i, oe), d', fs')) :
    (oe ≠ none → d' = d) ∧
    (oe = none → i = d.lastObjectID + 1 ∧ d' = { d with lastObjectID := d.lastObjectID + 1 }) := by
  unfold Create at h
  cases hc : checkOwnedByMe d fs with
  | error e =>
    rw [hc] at h
    simp only [Prod.mk.injEq] at h
    obtain ⟨⟨hi, hoe⟩, hd, hfs⟩ := h
    refine ⟨fun _ => hd.symm, fun hnone => ?_⟩
    rw [← hoe] at hnone
    simp at hnone
  | ok val =>
    cases val
    rw [hc] at h
    cases hs : Save d fs (d.lastObjectID + 1) data with
    | mk rr fs2 =>
      rw [hs] at h
      cases rr with
      | error e =>
        simp only [Prod.mk.injEq] at h
        obtain ⟨⟨hi, hoe⟩, hd, hfs⟩ := h
        refine ⟨fun _ => hd.symm, fun hnone => ?_⟩
        rw [← hoe] at hnone
        simp at hnone
      | ok u =>
        cases u
        simp only [Prod.mk.injEq] at h
        obtain ⟨⟨hi, hoe⟩, hd, hfs⟩ := h
        refine ⟨fun hne => absurd hoe.symm hne, fun _ => ⟨hi.symm, hd.symm⟩⟩

theorem step_cases (d : FSDir) (fs : FS) (op : Op) (r : OpResult) (d' : FSDir) (fs' : FS)
    (h : step d fs op = (r, d', fs')) :
    (createdOf r = none ∧ d' = d) ∨
    (createdOf r = some (d.lastObjectID + 1) ∧
      d' = { d with lastObjectID := d.lastObjectID + 1 }) := by
  cases op with
  | create data =>
    rcases hcr : Create d fs data with ⟨⟨i, oe⟩, d0, fs0⟩
    have hst2 : step d fs (.create data) = (.created (i, oe), d0, fs0) := by
      simp only [step]
      rw [hcr]
    rw [h] at hst2
    simp only [Prod.mk.injEq] at hst2
    obtain ⟨hr, hd, hfs⟩ := hst2
    obtain ⟨hne, hno⟩ := Create_spec d fs data i oe d0 fs0 hcr
    cases oe with
    | none =>
      right
      obtain ⟨hi, hd0⟩ := hno rfl
      subst hr hd hi
      exact ⟨rfl, hd0⟩
    | some e =>
      left
      subst hr hd
      exact ⟨rfl, hne (by simp)⟩
  | load id =>
    have hst2 : step d fs (.load id) = (.loaded (Load d fs id), d, fs) := rfl
    rw [h] at hst2
    simp only [Prod.mk.injEq] at hst2
    left
    exact ⟨by rw [hst2.1]; rfl, hst2.2.1⟩
  | save id blob =>
    rcases hsv : Save d fs id blob with ⟨rr, fs0⟩
    have hst2 : step d fs (.save id blob) = (.saved rr, d, fs0) := by
      simp only [step]
      rw [hsv]
    rw [h] at hst2
    simp only [Prod.mk.injEq] at hst2
    left
    exact ⟨by rw [hst2.1]; rfl, hst2.2.1⟩
  | delete id =>
    rcases hdl : Delete d fs id with ⟨rr, fs0⟩
    have hst2 : step d fs (.delete id) = (.deleted rr, d, fs0) := by
      simp only [step]
      rw [hdl]
    rw [h] at hst2
    simp only [Prod.mk.injEq] at hst2
    left
    exact ⟨by rw [hst2.1]; rfl, hst2.2.1⟩
  | loadAll =>
    have hst2 : step d fs .loadAll = (.scanned (LoadAll d fs), d, fs) := rfl
    rw [h] at hst2
    simp only [Prod.mk.injEq] at hst2
    left
    exact ⟨by rw [hst2.1]; rfl, hst2.2.1⟩
  | close =>
    rcases hcl : Close d fs with ⟨rr, fs0⟩
    have hst2 : step d fs .close = (.closed rr, d, fs0) := by
      simp only [step]
      rw [hcl]
    rw [h] at hst2
    simp only [Prod.mk.injEq] at hst2
    left
    exact ⟨by rw [hst2.1]; rfl, hst2.2.1⟩

theorem run_ids (ops : List Op) : ∀ (d : FSDir) (fs : FS) (rs : List OpResult)
    (dF : FSDir) (fsF : FS), run d fs ops = (rs, dF, fsF) →
    (∀ i ∈ createdIDs rs, d.lastObjectID < i) ∧
    List.Chain' (fun a b => a < b) (createdIDs rs) ∧
    dF.lastObjectID = d.lastObjectID + (createdIDs rs).length := by
  induction ops with
  | nil =>
    intro d fs rs dF fsF h
    unfold run at h
    simp only [Prod.mk.injEq] at h
    obtain ⟨hrs, hdF, hfsF⟩ := h
    subst hrs hdF
    simp [createdIDs]
  | cons op ops ih =>
    intro d fs rs dF fsF h
    rcases hst : step d fs op with ⟨r, d', fs'⟩
    rcases hrn : run d' fs' ops with ⟨rs', dF', fsF'⟩
    have hrun : run d fs (op :: ops) = (r :: rs', dF', fsF') := by
      unfold run
      rw [hst]
      simp only [hrn]
    rw [h] at hrun
    simp only [Prod.mk.injEq] at hrun
    obtain ⟨hrs, hdF, hfsF⟩ := hrun
    subst hrs
    have hdFl : dF.lastObjectID = dF'.lastObjectID := by rw [hdF]
    obtain ⟨ihm, ihc, ihl⟩ := ih d' fs' rs' dF' fsF' hrn
    rcases step_cases d fs op r d' fs' hst with ⟨hco, hd⟩ | ⟨hco, hd⟩
    · have hdl : d'.lastObjectID = d.lastObjectID := by rw [hd]
      simp only [createdIDs, List.filterMap_cons, hco] at ihm ihc ihl ⊢
      refine ⟨?_, ihc, ?_⟩
      · intro i hi
        have := ihm i hi
        omega
      · omega
    · have hdl : d'.lastObjectID = d.lastObjectID + 1 := by rw [hd]
      simp only [createdIDs, List.filterMap_cons, hco] at ihm ihc ihl ⊢
      refine ⟨?_, ?_, ?_⟩
      · intro i hi
        rcases List.mem_cons.mp hi with hcase | hcase
        · omega
        · have := ihm i hcase
          omega
      · rw [List.chain'_cons']
        refine ⟨?_, ihc⟩
        intro y hy
        have hym := List.mem_of_mem_head? hy
        have := ihm y hym
        omega
      · simp only [List.length_cons]
        omega

theorem noLock_step (d : FSDir) (fs : FS) (op : Op)
    (h : findNode fs.entries lockFile = none) :
    (step d fs op).1.isOk = false ∧ (step d fs op).2.1 = d ∧ (step d fs op).2.2 = fs := by
  have hc := checkOwnedByMe_noLock d fs h
  cases op with
  | create data =>
    unfold step Create
    rw [hc]
    exact ⟨rfl, rfl, rfl⟩
  | load id =>
    unfold step Load
    rw [hc]
    exact ⟨rfl, rfl, rfl⟩
  | save id blob =>
    unfold step Save
    rw [hc]
    exact ⟨rfl, rfl, rfl⟩
  | delete id =>
    unfold step Delete
    rw [hc]
    exact ⟨rfl, rfl, rfl⟩
  | loadAll =>
    unfold step LoadAll
    rw [hc]
    exact ⟨rfl, rfl, rfl⟩
  | close =>
    unfold step Close releaseOwnership removeFile
    rw [h]
    exact ⟨rfl, rfl, rfl⟩

theorem noLock_run (ops : List Op) : ∀ (d : FSDir) (fs : FS),
    findNode fs.entries lockFile = none →
    ∀ r ∈ (run d fs ops).1, r.isOk = false := by
  induction ops with
  | nil => intro d fs h r hr; simp [run] at hr
  | cons op ops ih =>
    intro d fs h r hr
    rcases hst : step d fs op with ⟨r0, d', fs'⟩
    obtain ⟨hok, hd, hfs⟩ := noLock_step d fs op h
    rw [hst] at hok hd hfs
    have hok' : r0.isOk = false := hok
    have hfs' : fs' = fs := hfs
    rcases hrn : run d' fs' ops with ⟨rs, dF, fsF⟩
    have hrun : run d fs (op :: ops) = (r0 :: rs, dF, fsF) := by
      unfold run
      rw [hst]
      simp only [hrn]
    rw [hrun] at hr
    rcases List.mem_cons.mp hr with hcase | hcase
    · subst hcase; exact hok'
    · have := ih d' fs' (by rw [hfs']; exact h) r
      rw [hrn] at this
      exact this hcase

/-! ### Claim theorems -/

/-- C2: across any sequence of operations on one handle, the identifiers
returned by the successful creates are strictly increasing and never repeat,
and the `lastObjectID` counter is monotonically non-decreasing and advanced by
exactly one on each successful creation. -/
theorem c2_create_identifiers_strictly_increasing (d : FSDir) (fs : FS) (ops : List Op)
    (rs : List OpResult) (dF : FSDir) (fsF : FS) (h : run d fs ops = (rs, dF, fsF)) :
    List.Chain' (fun a b => a < b) (createdIDs rs) ∧
    (createdIDs rs).Nodup ∧
    d.lastObjectID ≤ dF.lastObjectID ∧
    dF.lastObjectID = d.lastObjectID + (createdIDs rs).length := by
  obtain ⟨hm, hc, hl⟩ := run_ids ops d fs rs dF fsF h
  refine ⟨hc, ?_, by omega, hl⟩
  have hp : List.Pairwise (fun a b => a < b) (createdIDs rs) :=
    List.chain'_iff_pairwise.mp hc
  exact hp.imp (fun hab => ne_of_lt hab)

/-- Witness for C2: two successful creates through one handle return 1 then 2. -/
theorem c2_witness :
    List.Chain' (fun a b => a < b)
      (createdIDs [OpResult.created (1, none), OpResult.created (2, none)]) ∧
    (createdIDs [OpResult.created (1, none), OpResult.created (2, none)]).Nodup ∧
    (FSDir.mk 0 7 [47, 115]).lastObjectID ≤ (FSDir.mk 2 7 [47, 115]).lastObjectID ∧
    (FSDir.mk 2 7 [47, 115]).lastObjectID = (FSDir.mk 0 7 [47, 115]).lastObjectID +
      (createdIDs [OpResult.created (1, none), OpResult.created (2, none)]).length :=
  c2_create_identifiers_strictly_increasing ⟨0, 7, [47, 115]⟩
    ⟨[⟨lockFile, .file [55]⟩], [], []⟩ [.create [1], .create [2]]
    [.created (1, none), .created (2, none)] ⟨2, 7, [47, 115]⟩
    ⟨[⟨lockFile, .file [55]⟩, ⟨[49], .file [1]⟩, ⟨[50], .file [2]⟩], [], []⟩ rfl

/-- C3: every CRUD/scan operation and the open path verify ownership first;
an absent lock yields the ownership-unavailable (not-exist) condition, a lock
naming a foreign pid yields `ErrDifferentOwner` with that pid, and in either
failure case the operation returns only the error and changes neither the
filesystem nor the handle. -/
theorem c3_ownership_failure_is_total_noop (d : FSDir) (fs : FS) (op : Op) (e : Err)
    (hop : op ≠ Op.close) (h : checkOwnedByMe d fs = .error e) :
    step d fs op = (errResult op e, d, fs) ∧
    (∀ pid fsPath, checkOwnedByMe ⟨0, pid, fsPath⟩ fs = .error e →
      NewFSDir pid fsPath fs = .error e) ∧
    (findNode fs.entries lockFile = none → e = .ioErr (.notExist lockFile)) ∧
    (∀ content q, readFile fs lockFile = .ok content → atoi content = some q →
      q ≠ d.pid → e = .differentOwner q) := by
  refine ⟨?_, ?_, ?_, ?_⟩
  · cases op with
    | create data => unfold step Create errResult; rw [h]
    | load id => unfold step Load errResult; rw [h]
    | save id blob => unfold step Save errResult; rw [h]
    | delete id => unfold step Delete errResult; rw [h]
    | loadAll => unfold step LoadAll errResult; rw [h]
    | close => exact absurd rfl hop
  · intro pid fsPath hck
    unfold NewFSDir
    rw [hck]
  · intro hnl
    have h2 := checkOwnedByMe_noLock d fs hnl
    rw [h] at h2
    simp only [Except.error.injEq] at h2
    exact h2
  · intro content q hrf hat hq
    have hgo : getOwner d fs = .ok q := by
      unfold getOwner
      rw [hrf]
      simp only [hat]
    unfold checkOwnedByMe at h
    rw [hgo] at h
    have h2 : (if q ≠ d.pid then (Except.error (Err.differentOwner q) : Except Err Unit)
        else .ok ()) = .error e := h
    rw [if_pos hq] at h2
    simp only [Except.error.injEq] at h2
    exact h2.symm

/-- Witness for C3: a create against a store whose lock names pid 999 while the
caller is pid 1 fails with the foreign-owner error and changes nothing. -/
theorem c3_witness :
    step ⟨0, 1, [47, 115]⟩ ⟨[⟨lockFile, .file [57, 57, 57]⟩], [], []⟩ (.create [7]) =
      (errResult (.create [7]) (.differentOwner 999), ⟨0, 1, [47, 115]⟩,
        ⟨[⟨lockFile, .file [57, 57, 57]⟩], [], []⟩) :=
  (c3_ownership_failure_is_total_noop ⟨0, 1, [47, 115]⟩
    ⟨[⟨lockFile, .file [57, 57, 57]⟩], [], []⟩ (.create [7]) (.differentOwner 999)
    (by decide) rfl).1

/-- C4: a successful `Save` of any byte sequence, the empty one included,
followed by `Load` of the same identifier on the same owned handle returns
exactly the saved bytes. -/
theorem c4_save_then_load_roundtrip (d : FSDir) (fs fs' : FS) (id : Int) (blob : Blob)
    (hs : Save d fs id blob = (.ok (), fs'))
    (hr : formatID id ∉ fs.readFault) :
    Load d fs' id = .ok blob := by
  obtain ⟨hc, hfs'⟩ := Save_ok d fs id blob fs' hs
  subst hfs'
  have hck : checkOwnedByMe d
      { fs with entries := setEntry fs.entries (formatID id) (.file blob) } =
      checkOwnedByMe d fs :=
    checkOwnedByMe_update d fs _
      (findNode_setEntry_ne fs.entries (formatID id) (.file blob) lockFile
        (Ne.symm (formatID_ne_lockFile id)))
  unfold Load
  rw [hck, hc]
  unfold readFile
  have h5 : findNode
      ({ fs with entries := setEntry fs.entries (formatID id) (.file blob) }).entries
      (formatID id) = some (.file blob) :=
    findNode_setEntry_self fs.entries (formatID id) (.file blob)
  have hr2 : formatID id ∉
      ({ fs with entries := setEntry fs.entries (formatID id) (.file blob) }).readFault := hr
  rw [h5]
  simp [hr2]

/-- Witness for C4: saving bytes 10, 20 under identifier 1 and loading 1 back
returns exactly those bytes. -/
theorem c4_witness :
    Load ⟨0, 7, [47, 115]⟩ ⟨[⟨lockFile, .file [55]⟩, ⟨[49], .file [10, 20]⟩], [], []⟩ 1 =
      .ok [10, 20] :=
  c4_save_then_load_roundtrip ⟨0, 7, [47, 115]⟩ ⟨[⟨lockFile, .file [55]⟩], [], []⟩
    ⟨[⟨lockFile, .file [55]⟩, ⟨[49], .file [10, 20]⟩], [], []⟩ 1 [10, 20] rfl (by decide)

/-- C5: when the blob write inside `Create` fails, `Create` returns `NullID`
(which is 0) together with the underlying error, and both the handle (hence
`lastObjectID`) and the filesystem are unchanged: a failed creation never
consumes an identifier. -/
theorem c5_failed_create_returns_null_and_keeps_counter (d : FSDir) (fs : FS)
    (data : Blob) (e : Err)
    (hc : checkOwnedByMe d fs = .ok ())
    (hw : (Save d fs (d.lastObjectID + 1) data).1 = .error e) :
    Create d fs data = ((NullID, some e), d, fs) ∧ NullID = 0 := by
  refine ⟨?_, rfl⟩
  have hfs := Save_error_fs d fs (d.lastObjectID + 1) data e hw
  unfold Create
  rw [hc]
  rcases hsv : Save d fs (d.lastObjectID + 1) data with ⟨rr, fs2⟩
  rw [hsv] at hw hfs
  have hrr : rr = .error e := hw
  have hfs2 : fs2 = fs := hfs
  subst hrr hfs2
  rfl

/-- Witness for C5: with a write fault on the file named "1", `Create` returns
`NullID` with the write error and the handle and filesystem are unchanged. -/
theorem c5_witness :
    Create ⟨0, 7, [47, 115]⟩ ⟨[⟨lockFile, .file [55]⟩], [], [[49]]⟩ [9] =
      ((NullID, some (.ioErr (.other [49]))), ⟨0, 7, [47, 115]⟩,
        ⟨[⟨lockFile, .file [55]⟩], [], [[49]]⟩) ∧ NullID = 0 :=
  c5_failed_create_returns_null_and_keeps_counter ⟨0, 7, [47, 115]⟩
    ⟨[⟨lockFile, .file [55]⟩], [], [[49]]⟩ [9] (.ioErr (.other [49])) rfl rfl

/-- C8: on an owned handle, loading an identifier whose decimal-named entry is
absent fails with `ErrNotFound` for that identifier; a successful `Delete`
followed by `Load` of the same identifier fails with `ErrNotFound`; and a
non-not-exist read failure is propagated unchanged, not translated. -/
theorem c8_missing_entry_gives_not_found (d : FSDir) (fs : FS) (id : Int) :
    (checkOwnedByMe d fs = .ok () → findNode fs.entries (formatID id) = none →
      Load d fs id = .error (.notFound id)) ∧
    (∀ fs', Delete d fs id = (.ok (), fs') → Load d fs' id = .error (.notFound id)) ∧
    (∀ n, checkOwnedByMe d fs = .ok () → readFile fs (formatID id) = .error (.other n) →
      Load d fs id = .error (.ioErr (.other n))) := by
  refine ⟨?_, ?_, ?_⟩
  · intro hc hn
    unfold Load
    rw [hc]
    unfold readFile
    rw [hn]
  · intro fs' hdel
    obtain ⟨hc, hfs'⟩ := Delete_ok d fs id fs' hdel
    subst hfs'
    have hck : checkOwnedByMe d
        { fs with entries := dropEntry fs.entries (formatID id) } =
        checkOwnedByMe d fs :=
      checkOwnedByMe_update d fs _
        (findNode_dropEntry_ne fs.entries (formatID id) lockFile
          (Ne.symm (formatID_ne_lockFile id)))
    unfold Load
    rw [hck, hc]
    unfold readFile
    have h5 : findNode
        ({ fs with entries := dropEntry fs.entries (formatID id) }).entries
        (formatID id) = none :=
      findNode_dropEntry_self fs.entries (formatID id)
    rw [h5]
  · intro n hc hrf
    unfold Load
    rw [hc, hrf]

/-- Witness for C8: deleting identifier 1 and then loading it yields the
not-found error for 1. -/
theorem c8_witness :
    Load ⟨0, 7, [47, 115]⟩ ⟨[⟨lockFile, .file [55]⟩], [], []⟩ 1 = .error (.notFound 1) :=
  (c8_missing_entry_gives_not_found ⟨0, 7, [47, 115]⟩
    ⟨[⟨lockFile, .file [55]⟩, ⟨[49], .file [9]⟩], [], []⟩ 1).2.1
    ⟨[⟨lockFile, .file [55]⟩], [], []⟩ rfl

/-- C9: after a successful `Close` (which removes the lock token), every
subsequent operation run through the same handle fails, since ownership can no
longer be verified. -/
theorem c9_no_operation_succeeds_after_close (d : FSDir) (fs fs' : FS)
    (h : Close d fs = (.ok (), fs')) (ops : List Op) :
    ∀ r ∈ (run d fs' ops).1, r.isOk = false := by
  have hnl : findNode fs'.entries lockFile = none := by
    unfold Close releaseOwnership at h
    cases hr : removeFile fs lockFile with
    | error e => rw [hr] at h; simp at h
    | ok fs2 =>
      rw [hr] at h
      simp only [Prod.mk.injEq] at h
      unfold removeFile at hr
      split at hr
      · simp at hr
      · simp only [Except.ok.injEq] at hr
        rw [← h.2, ← hr]
        exact findNode_dropEntry_self fs.entries lockFile
  exact noLock_run ops d fs' hnl

/-- Witness for C9: after closing a store holding only its lock token, a
subsequent create fails with the ownership-unavailable error. -/
theorem c9_witness :
    OpResult.isOk (OpResult.created (0, some (Err.ioErr (IOErr.notExist lockFile)))) = false :=
  c9_no_operation_succeeds_after_close ⟨0, 7, [47, 115]⟩
    ⟨[⟨lockFile, .file [55]⟩], [], []⟩ ⟨[], [], []⟩ rfl [.create [9]]
    (OpResult.created (0, some (Err.ioErr (IOErr.notExist lockFile)))) (by decide)

/-- C10: the walk behind both the open-time scan and `LoadAll` visits the store
directory's own root first and the is-directory check rejects it, so for every
backing directory the scan, `LoadAll` (under passing ownership), and `NewFSDir`
(under passing ownership) all fail with a corrupted-content error naming the
store directory itself. -/
theorem c10_walk_rejects_store_root (d : FSDir) (fs : FS) :
    getLastObjectID d fs = (0, some (.corruptedContent d.fsPath)) ∧
    (checkOwnedByMe d fs = .ok () → LoadAll d fs = ([], some (.corruptedContent d.fsPath))) ∧
    (∀ pid fsPath, checkOwnedByMe ⟨0, pid, fsPath⟩ fs = .ok () →
      NewFSDir pid fsPath fs = .error (.corruptedContent fsPath)) := by
  refine ⟨rfl, ?_, ?_⟩
  · intro hc
    unfold LoadAll
    rw [hc]
    rfl
  · intro pid fsPath hc
    unfold NewFSDir
    rw [hc]
    rfl

/-- Witness for C10: a store with an owned lock and one numeric entry cannot be
opened; `NewFSDir` fails naming the store directory as corrupted. -/
theorem c10_witness :
    NewFSDir 7 [47, 115] ⟨[⟨lockFile, .file [55]⟩, ⟨[49], .file [1]⟩], [], []⟩ =
      .error (.corruptedContent [47, 115]) :=
  (c10_walk_rejects_store_root ⟨0, 7, [47, 115]⟩
    ⟨[⟨lockFile, .file [55]⟩, ⟨[49], .file [1]⟩], [], []⟩).2.2 7 [47, 115] rfl

/-- Store directory for the C1 evaluation: lock token owned by pid 1234 plus
entries named "1", "3" and "7". -/
def fsSeed137 : FS :=
  ⟨[⟨lockFile, .file [49, 50, 51, 52]⟩, ⟨[49], .file [1]⟩, ⟨[51], .file [2]⟩,
    ⟨[55], .file [3]⟩], [], []⟩

/-- C1 (code evaluation at the failing input): over a store containing entries
1, 3 and 7 with a lock naming the caller, the ownership check passes yet
`NewFSDir` fails with a corrupted-content error naming the store directory, so
no counter is ever seeded and no create can return 8. -/
theorem c1_open_never_seeds_counter :
    checkOwnedByMe ⟨0, 1234, [47, 115]⟩ fsSeed137 = .ok () ∧
    NewFSDir 1234 [47, 115] fsSeed137 = .error (.corruptedContent [47, 115]) :=
  ⟨rfl, rfl⟩

/-- Store directory for the C6 evaluation: the lock token, a numeric entry "1",
and a non-numeric entry "notes". -/
def fsMixed : FS :=
  ⟨[⟨lockFile, .file [55]⟩, ⟨[49], .file [1]⟩,
    ⟨[110, 111, 116, 101, 115], .file [2]⟩], [], []⟩

/-- C6 (code evaluation at the failing input): both scans abort at the store
directory root itself, before the lock token is skipped, before "1" is
accepted, and before the non-numeric entry "notes" could be named as the
offending path. -/
theorem c6_scan_aborts_before_classifying :
    LoadAll ⟨0, 7, [47, 115]⟩ fsMixed = ([], some (.corruptedContent [47, 115])) ∧
    getLastObjectID ⟨0, 7, [47, 115]⟩ fsMixed = (0, some (.corruptedContent [47, 115])) :=
  ⟨rfl, rfl⟩

/-- Store directory for the C7 evaluation: the lock token plus regular files
"1" and "2". -/
def fsTwoEntries : FS :=
  ⟨[⟨lockFile, .file [55]⟩, ⟨[49], .file [10]⟩, ⟨[50], .file [20]⟩], [], []⟩

/-- C7 (code evaluation at the failing input): over entries "1", "2" and the
lock token on an owned handle, `LoadAll` returns no items and the
corrupted-content error naming the store directory, not the two expected
items. -/
theorem c7_loadAll_returns_no_items :
    LoadAll ⟨0, 7, [47, 115]⟩ fsTwoEntries = ([], some (.corruptedContent [47, 115])) :=
  rfl

end Store
